import Mathlib

/-!
Shallow embedding of the Virtual Event Management Platform backend.

The in-memory stores (src/src/data/users.js, src/src/data/events.js) are
modelled as Lean lists, the Express controllers
(src/src/controllers/eventController.js and the auth controller) as pure
functions from a request plus the current store to a typed result plus the
next store.  JavaScript `undefined` versus present values are modelled with
`Option`; a JSON `null` inside a present field is a nested `Option`.
Timestamps (`new Date().toISOString()`) are modelled as a `Nat` parameter
supplied by the caller, and generated uuids as a `String` parameter.
-/

set_option maxHeartbeats 1000000

namespace VEMP

/-- A participant snapshot appended to an event by `registerForEvent`
(eventController.js): user identifier, name, email and registration time. -/
structure Participant where
  userId : String
  name : String
  email : String
  registeredAt : Nat
deriving DecidableEq, Repr

/-- An event record as built by `createEvent` (eventController.js).
`maxParticipants` is `null` or a number in the source, hence `Option Int`. -/
structure Event where
  id : String
  title : String
  description : String
  date : String
  time : String
  location : String
  maxParticipants : Option Int
  organizerId : String
  participants : List Participant
  createdAt : Nat
  updatedAt : Nat
deriving DecidableEq, Repr

/-- A user record as built by the auth controller `register` function. -/
structure User where
  id : String
  name : String
  email : String
  password : String
  role : String
  createdAt : Nat
deriving DecidableEq, Repr

/-- The authenticated caller identity placed on `req.user` by the
`authenticate` middleware (authMiddleware.js). -/
structure AuthUser where
  id : String
  name : String
  email : String
  role : String
deriving DecidableEq, Repr

/-! ## String primitives

The JavaScript string methods used by the source (`trim`, `toLowerCase`,
splitting for the email test) are modelled by structurally recursive
functions over the character list of a string, so every definition reduces
inside the kernel. -/

/-- JavaScript `String.prototype.trim`: drop leading and trailing
whitespace. -/
def jsTrim (s : String) : String :=
  ⟨(((s.data.dropWhile Char.isWhitespace).reverse.dropWhile Char.isWhitespace).reverse)⟩

/-- Lowercasing of one character (ASCII, which covers every string in this
development), modelling `String.prototype.toLowerCase`. -/
def jsCharLower (c : Char) : Char :=
  if 65 ≤ c.toNat ∧ c.toNat ≤ 90 then Char.ofNat (c.toNat + 32) else c

/-- JavaScript `String.prototype.toLowerCase`. -/
def jsToLower (s : String) : String :=
  ⟨s.data.map jsCharLower⟩

/-- Split a character list at every occurrence of a separator. -/
def splitOnChar (sep : Char) : List Char → List (List Char)
  | [] => [[]]
  | c :: cs =>
    let r := splitOnChar sep cs
    if c == sep then [] :: r
    else
      match r with
      | [] => [[c]]
      | h :: t => (c :: h) :: t

/-! ## Data layer: src/src/data/events.js and src/src/data/users.js -/

/-- `findEventById` from events.js: `events.find((event) => event.id === id)`. -/
def findEventById (id : String) (events : List Event) : Option Event :=
  events.find? (fun event => event.id == id)

/-- `addEvent` from events.js: `events.push(event)`. -/
def addEvent (event : Event) (events : List Event) : List Event :=
  events ++ [event]

/-- The `updatedData` object built inside `updateEventById`
(eventController.js): a field is a key of the object exactly when it is
`some`; `updatedAt` is always a key. -/
structure UpdatedData where
  title : Option String
  description : Option String
  date : Option String
  time : Option String
  location : Option String
  maxParticipants : Option (Option Int)
  updatedAt : Nat
deriving DecidableEq, Repr

/-- The object spread `{ ...events[index], ...updatedData }` in
`updateEvent` (events.js). -/
def mergeEvent (e : Event) (u : UpdatedData) : Event :=
  { e with
    title := u.title.getD e.title
    description := u.description.getD e.description
    date := u.date.getD e.date
    time := u.time.getD e.time
    location := u.location.getD e.location
    maxParticipants := u.maxParticipants.getD e.maxParticipants
    updatedAt := u.updatedAt }

/-- `updateEvent` from events.js: find the index of the first event with the
given id, overwrite that slot with the spread of old event and update data,
return the updated record; when the id is absent return `none` and leave the
store unchanged. -/
def updateEvent (id : String) (u : UpdatedData) : List Event → Option Event × List Event
  | [] => (none, [])
  | e :: es =>
    if e.id == id then (some (mergeEvent e u), mergeEvent e u :: es)
    else
      let r := updateEvent id u es
      (r.1, e :: r.2)

/-- `deleteEvent` from events.js: splice out the first event with the given
id; when the id is absent return `none` and leave the store unchanged. -/
def deleteEvent (id : String) : List Event → Option Event × List Event
  | [] => (none, [])
  | e :: es =>
    if e.id == id then (some e, es)
    else
      let r := deleteEvent id es
      (r.1, e :: r.2)

/-- In-place mutation of the event object returned by `findEventById`, as
performed by `event.participants.push(...)` in `registerForEvent`: the first
event in the store whose id matches is replaced by the mutated record. -/
def setEventFirst (id : String) (e' : Event) : List Event → List Event
  | [] => []
  | e :: es => if e.id == id then e' :: es else e :: setEventFirst id e' es

/-- `findUserByEmail` from users.js: `users.find((user) => user.email === email)`. -/
def findUserByEmail (email : String) (users : List User) : Option User :=
  users.find? (fun user => user.email == email)

/-- `addUser` from users.js: `users.push(user)`. -/
def addUser (user : User) (users : List User) : List User :=
  users ++ [user]

/-! ## Validators: src/src/utils/validators.js -/

/-- The check `!x || typeof x !== "string" || x.trim().length === 0` used for
name, title, description and location: present, truthy, non-blank string. -/
def requiredTrimmed : Option String → Bool
  | none => false
  | some s => s != "" && jsTrim s != ""

/-- The check `!x || typeof x !== "string"` used for date and time:
present truthy string. -/
def requiredString : Option String → Bool
  | none => false
  | some s => s != ""

/-- The regular expression test from `validateRegistration`: one at sign with
a non-empty whitespace-free local part, and a whitespace-free domain that
contains a dot strictly inside it. -/
def emailFormatOk (s : String) : Bool :=
  match splitOnChar '@' s.data with
  | [localPart, domain] =>
    !localPart.isEmpty &&
    localPart.all (fun c => !c.isWhitespace) &&
    domain.all (fun c => !c.isWhitespace) &&
    ((domain.drop 1).dropLast.contains '.')
  | _ => false

/-- `validateRegistration` from validators.js, with error strings pushed in
source order. -/
def validateRegistration (name email password role : Option String) : List String :=
  (if requiredTrimmed name then [] else ["Name is required"]) ++
  (match email with
   | none => ["Email is required"]
   | some e =>
     if e == "" then ["Email is required"]
     else if emailFormatOk e then [] else ["Invalid email format"]) ++
  (match password with
   | none => ["Password is required"]
   | some p =>
     if p == "" then ["Password is required"]
     else if p.length < 6 then ["Password must be at least 6 characters"] else []) ++
  (match role with
   | none => []
   | some r =>
     if r == "" then []
     else if r == "organizer" || r == "attendee" then []
     else ["Role must be either organizer or attendee"])

/-- `validateEvent` from validators.js. -/
def validateEvent (title description date time location : Option String) : List String :=
  (if requiredTrimmed title then [] else ["Title is required"]) ++
  (if requiredTrimmed description then [] else ["Description is required"]) ++
  (if requiredString date then [] else ["Date is required"]) ++
  (if requiredString time then [] else ["Time is required"]) ++
  (if requiredTrimmed location then [] else ["Location is required"])

/-! ## Auth controller: user registration -/

/-- Request body of POST /register. -/
structure RegisterReqBody where
  name : Option String
  email : Option String
  password : Option String
  role : Option String
deriving DecidableEq, Repr

/-- Modelled from the spec: the password credential stored for a user is an
opaque one-way hashed derivative produced by the external bcrypt
collaborator; represented as an uninterpreted tagging function. -/
def bcryptHash (saltRounds : Nat) (plain : String) : String :=
  "bcrypt." ++ toString saltRounds ++ "." ++ plain

/-- Typed outcome of the auth controller `register` function, tagged by the
HTTP status it responds with. -/
inductive RegisterUserResult where
  | validationError (errors : List String)
  | conflict
  | created (user : User)
deriving DecidableEq, Repr

/-- Status code the auth controller responds with for each outcome. -/
def registerUserStatus : RegisterUserResult → Nat
  | .validationError _ => 400
  | .conflict => 409
  | .created _ => 201

/-- The auth controller `register` function: validate the shape, look up the
raw request email in the user store, otherwise build the user with trimmed
name, lowercased trimmed email, hashed password, and role defaulted through
`role || "attendee"`, then push it. -/
def registerUser (body : RegisterReqBody) (newId : String) (now : Nat)
    (users : List User) : RegisterUserResult × List User :=
  let errors := validateRegistration body.name body.email body.password body.role
  if errors.length > 0 then (.validationError errors, users)
  else
    match findUserByEmail (body.email.getD "") users with
    | some _ => (.conflict, users)
    | none =>
      let newUser : User :=
        { id := newId
          name := jsTrim (body.name.getD "")
          email := jsTrim (jsToLower (body.email.getD ""))
          password := bcryptHash 10 (body.password.getD "")
          role := match body.role with
                  | some r => if r == "" then "attendee" else r
                  | none => "attendee"
          createdAt := now }
      (.created newUser, addUser newUser users)

/-! ## Event controller: src/src/controllers/eventController.js -/

/-- Request body of POST /events and PUT /events/:id.  A `none` field is an
absent (`undefined`) key; `maxParticipants` may additionally be an explicit
JSON `null`, hence the nested `Option`. -/
structure EventReqBody where
  title : Option String
  description : Option String
  date : Option String
  time : Option String
  location : Option String
  maxParticipants : Option (Option Int)
deriving DecidableEq, Repr

/-- Typed outcome of `createEvent`. -/
inductive CreateEventResult where
  | validationError (errors : List String)
  | created (event : Event)
deriving DecidableEq, Repr

/-- Status code `createEvent` responds with. -/
def createEventStatus : CreateEventResult → Nat
  | .validationError _ => 400
  | .created _ => 201

/-- `createEvent` from eventController.js: validate, then build the event
with `maxParticipants: maxParticipants || null` (so an absent field, an
explicit `null` and the falsy number `0` all store `null`), the caller as
`organizerId`, an empty participant list, and push it. -/
def createEvent (user : AuthUser) (body : EventReqBody) (now : Nat) (newId : String)
    (events : List Event) : CreateEventResult × List Event :=
  let errors := validateEvent body.title body.description body.date body.time body.location
  if errors.length > 0 then (.validationError errors, events)
  else
    let newEvent : Event :=
      { id := newId
        title := jsTrim (body.title.getD "")
        description := jsTrim (body.description.getD "")
        date := body.date.getD ""
        time := body.time.getD ""
        location := jsTrim (body.location.getD "")
        maxParticipants := match body.maxParticipants with
                           | some (some n) => if n == 0 then none else some n
                           | _ => none
        organizerId := user.id
        participants := []
        createdAt := now
        updatedAt := now }
    (.created newEvent, addEvent newEvent events)

/-- The conditional spread `...(field && { field: field.trim() })` used in
`updateEventById` for title, description and location: the key is included
exactly when the request value is a truthy string, and it is trimmed. -/
def strFieldPatch : Option String → Option String
  | none => none
  | some s => if s == "" then none else some (jsTrim s)

/-- The conditional spread `...(field && { field })` used in `updateEventById`
for date and time: included exactly when truthy, untrimmed. -/
def rawFieldPatch : Option String → Option String
  | none => none
  | some s => if s == "" then none else some s

/-- The `updatedData` object literal of `updateEventById`:
`maxParticipants` is included exactly when it is not `undefined`
(`maxParticipants !== undefined`), and `updatedAt` is always included. -/
def buildUpdatedData (body : EventReqBody) (now : Nat) : UpdatedData :=
  { title := strFieldPatch body.title
    description := strFieldPatch body.description
    date := rawFieldPatch body.date
    time := rawFieldPatch body.time
    location := strFieldPatch body.location
    maxParticipants := body.maxParticipants
    updatedAt := now }

/-- Typed outcome of `updateEventById`.  The 200 payload carries the return
value of the data-layer `updateEvent` call, which is an optional event. -/
inductive UpdateEventResult where
  | notFound
  | forbidden
  | updated (event : Option Event)
deriving DecidableEq, Repr

/-- Status code `updateEventById` responds with. -/
def updateEventStatus : UpdateEventResult → Nat
  | .notFound => 404
  | .forbidden => 403
  | .updated _ => 200

/-- `updateEventById` from eventController.js: 404 when the id is absent,
403 when `event.organizerId !== req.user.id`, otherwise apply the
conditionally-spread patch through the data layer and respond 200 with the
updated record. -/
def updateEventById (id : String) (user : AuthUser) (body : EventReqBody) (now : Nat)
    (events : List Event) : UpdateEventResult × List Event :=
  match findEventById id events with
  | none => (.notFound, events)
  | some event =>
    if event.organizerId != user.id then (.forbidden, events)
    else
      let r := updateEvent id (buildUpdatedData body now) events
      (.updated r.1, r.2)

/-- Typed outcome of `deleteEventById`. -/
inductive DeleteEventResult where
  | notFound
  | forbidden
  | deleted
deriving DecidableEq, Repr

/-- Status code `deleteEventById` responds with. -/
def deleteEventStatus : DeleteEventResult → Nat
  | .notFound => 404
  | .forbidden => 403
  | .deleted => 200

/-- `deleteEventById` from eventController.js: 404 when the id is absent,
403 when `event.organizerId !== req.user.id`, otherwise delete through the
data layer and respond 200. -/
def deleteEventById (id : String) (user : AuthUser) (events : List Event) :
    DeleteEventResult × List Event :=
  match findEventById id events with
  | none => (.notFound, events)
  | some event =>
    if event.organizerId != user.id then (.forbidden, events)
    else
      let r := deleteEvent id events
      (.deleted, r.2)

/-- The truthiness test `event.participants.find((p) => p.userId === req.user.id)`
in `registerForEvent`. -/
def alreadyRegistered (event : Event) (userId : String) : Bool :=
  event.participants.any (fun p => p.userId == userId)

/-- The capacity test
`event.maxParticipants && event.participants.length >= event.maxParticipants`
in `registerForEvent`; a stored `null` or number `0` is falsy. -/
def eventFull (event : Event) : Bool :=
  match event.maxParticipants with
  | none => false
  | some c => c != 0 && decide ((event.participants.length : Int) ≥ c)

/-- The reduced event view returned by a successful registration. -/
structure EventView where
  id : String
  title : String
  date : String
  time : String
deriving DecidableEq, Repr

/-- Typed outcome of `registerForEvent`. -/
inductive RegisterResult where
  | notFound
  | conflict
  | capacityExceeded
  | success (event : EventView)
deriving DecidableEq, Repr

/-- Status code `registerForEvent` responds with; the capacity error is sent
as a plain 400. -/
def registerStatus : RegisterResult → Nat
  | .notFound => 404
  | .conflict => 409
  | .capacityExceeded => 400
  | .success _ => 200

/-- Boolean discriminator for the success outcome of a registration. -/
def RegisterResult.isSuccess : RegisterResult → Bool
  | .success _ => true
  | _ => false

/-- Boolean discriminator for the created outcome of event creation. -/
def CreateEventResult.isCreated : CreateEventResult → Bool
  | .created _ => true
  | _ => false

/-- Boolean discriminator for the updated outcome of an event update. -/
def UpdateEventResult.isUpdated : UpdateEventResult → Bool
  | .updated _ => true
  | _ => false

/-- The possible outcomes of the external SMTP transport used by
`sendRegistrationEmail` (emailService.js). -/
inductive EmailOutcome where
  | sent (messageId : String)
  | failed (message : String)
deriving DecidableEq, Repr

/-- The resolved value of `sendRegistrationEmail` together with the console
lines it writes. -/
structure EmailSendResult where
  success : Bool
  detail : String
  log : List String
deriving DecidableEq, Repr

/-- Modelled from the spec: the SMTP transport behind `sendRegistrationEmail`
(emailService.js) is an external collaborator whose outcome for one send is
an `EmailOutcome` parameter.  The function resolves with
`{ success: true, messageId }` and a log line on success, and catches any
transport error, logs it, and resolves with `{ success: false, error }`; it
never rejects. -/
def sendRegistrationEmail (outcome : EmailOutcome) (userEmail userName eventTitle : String) :
    EmailSendResult :=
  match outcome with
  | .sent messageId =>
    { success := true
      detail := messageId
      log := ["Registration email sent to " ++ userEmail ++ ": " ++ messageId] }
  | .failed message =>
    { success := false
      detail := message
      log := ["Failed to send email to " ++ userEmail ++ ": " ++ message] }

/-- `registerForEvent` from eventController.js: 404 when the id is absent,
409 when the caller is already a participant, 400 when the capacity test
fires, otherwise push the participant snapshot, fire the confirmation email
without inspecting its outcome, and respond 200 with the reduced view.  The
third component is the console log of the email send. -/
def registerForEvent (outcome : EmailOutcome) (id : String) (user : AuthUser) (now : Nat)
    (events : List Event) : RegisterResult × List Event × List String :=
  match findEventById id events with
  | none => (.notFound, events, [])
  | some event =>
    if alreadyRegistered event user.id then (.conflict, events, [])
    else if eventFull event then (.capacityExceeded, events, [])
    else
      let participant : Participant :=
        { userId := user.id, name := user.name, email := user.email, registeredAt := now }
      let updatedEvent := { event with participants := event.participants ++ [participant] }
      let emailResult := sendRegistrationEmail outcome user.email user.name event.title
      (.success { id := event.id, title := event.title, date := event.date, time := event.time },
       setEventFirst id updatedEvent events, emailResult.log)

/-! ## Capacity invariant -/

/-- The bound stated by the specification: when an event has a capacity, its
participant count is at most that capacity. -/
def withinCapacity (event : Event) : Bool :=
  match event.maxParticipants with
  | none => true
  | some c => decide ((event.participants.length : Int) ≤ c)

/-- Store-wide capacity invariant: every stored capacity is positive (the
specification's data model makes capacity an optional positive integer) and
bounds the participant count. -/
def capacityOk (event : Event) : Bool :=
  match event.maxParticipants with
  | none => true
  | some c => decide (0 < c) && decide ((event.participants.length : Int) ≤ c)

/-- The capacity invariant over the whole event store. -/
def capacityInvariant (events : List Event) : Bool :=
  events.all capacityOk

/-- Guard on the capacity field of a create request: absent, `null`, or a
nonnegative number. -/
def capRequestOk : Option (Option Int) → Bool
  | some (some c) => decide (0 ≤ c)
  | _ => true

/-- Guard on the capacity field of an update patch against the current
store: absent, the `null` sentinel, or a positive number at least the
current participant count of the patched event. -/
def capPatchOk (id : String) (events : List Event) : Option (Option Int) → Bool
  | some (some c) =>
    decide (0 < c) &&
    (match findEventById id events with
     | some e => decide ((e.participants.length : Int) ≤ c)
     | none => true)
  | _ => true

/-! ## Shared demo values used by concrete instantiations -/

/-- Demo organizer identity. -/
def orgAlice : AuthUser :=
  { id := "org-1", name := "Alice", email := "alice@example.com", role := "organizer" }

/-- Demo attendee identity. -/
def attBob : AuthUser :=
  { id := "att-1", name := "Bob", email := "bob@example.com", role := "attendee" }

/-- Second demo attendee identity. -/
def attCara : AuthUser :=
  { id := "att-2", name := "Cara", email := "cara@example.com", role := "attendee" }

/-- A well-formed create-event request body with no capacity field. -/
def baseEventBody : EventReqBody :=
  { title := some "Team Sync"
    description := some "Weekly sync"
    date := some "2026-03-15"
    time := some "10:00"
    location := some "Room 1"
    maxParticipants := none }

/-- An update request body with every field absent. -/
def emptyPatch : EventReqBody :=
  { title := none, description := none, date := none, time := none,
    location := none, maxParticipants := none }

/-- A demo stored event owned by the demo organizer, without capacity. -/
def hallEvent : Event :=
  { id := "ev-5"
    title := "Old Title"
    description := "Desc"
    date := "2026-01-01"
    time := "09:00"
    location := "Hall"
    maxParticipants := none
    organizerId := "org-1"
    participants := []
    createdAt := 0
    updatedAt := 0 }

/-! ## Concrete runs used as counterexamples and failing inputs -/

/-- Create request with capacity 2. -/
def capDemoBody : EventReqBody := { baseEventBody with maxParticipants := some (some 2) }

/-- Step 1 of the capacity run: organizer creates event ev-1 with capacity 2. -/
def capDemoCreate : CreateEventResult × List Event :=
  createEvent orgAlice capDemoBody 0 "ev-1" []

/-- Step 2: first attendee registers. -/
def capDemoReg1 : RegisterResult × List Event × List String :=
  registerForEvent (.sent "m1") "ev-1" attBob 1 capDemoCreate.2

/-- Step 3: second attendee registers, filling the event. -/
def capDemoReg2 : RegisterResult × List Event × List String :=
  registerForEvent (.sent "m2") "ev-1" attCara 2 capDemoReg1.2.1

/-- Step 4: the owner patches the capacity down to 1 while two participants
are registered. -/
def capDemoUpdate : UpdateEventResult × List Event :=
  updateEventById "ev-1" orgAlice { emptyPatch with maxParticipants := some (some 1) } 3
    capDemoReg2.2.1

/-- C1: counterexample.  A store reachable by createEvent, two successful
registrations and an owner update that lowers `maxParticipants` to 1 ends
with an event whose participant count (2) exceeds its set capacity (1):
`updateEventById` applies a capacity patch without checking the current
participant count, so the sequential operations do not preserve the
invariant. -/
theorem capacity_invariant_counterexample :
  capDemoCreate.1.isCreated = true ∧
  capDemoReg1.1.isSuccess = true ∧
  capDemoReg2.1.isSuccess = true ∧
  capDemoUpdate.1.isUpdated = true ∧
  capDemoUpdate.2.all withinCapacity = false := by decide

/-- Registration body whose email has upper-case letters. -/
def dupEmailBody : RegisterReqBody :=
  { name := some "Alice", email := some "Alice@Example.com",
    password := some "secret1", role := none }

/-- C2: the code at the failing input.  Two `registerUser` calls with the
identical raw email `Alice@Example.com` (so equal after normalization) both
succeed: the duplicate lookup uses the raw request email while the store
holds the lowercased trimmed email, so the second call is not a Conflict and
a second user with the same normalized email is added. -/
theorem duplicate_email_unnormalized_lookup :
  ((registerUser dupEmailBody "u-1" 0 []).2.map User.email = ["alice@example.com"]) ∧
  ((registerUser dupEmailBody "u-2" 1 (registerUser dupEmailBody "u-1" 0 []).2).1 ≠
    RegisterUserResult.conflict) ∧
  ((registerUser dupEmailBody "u-2" 1 (registerUser dupEmailBody "u-1" 0 []).2).2.map
    User.email = ["alice@example.com", "alice@example.com"]) := by decide

/-- Patch containing only an explicitly empty title. -/
def emptyTitlePatch : EventReqBody := { emptyPatch with title := some "" }

/-- C5: counterexample.  The patch field `title` is present (the empty
string), yet the stored title keeps its old value `Old Title`: update does
not apply every field present in the patch, only the truthy ones. -/
theorem update_present_empty_field_counterexample :
  emptyTitlePatch.title = some "" ∧
  updateEventById "ev-5" orgAlice emptyTitlePatch 7 [hallEvent] =
    (UpdateEventResult.updated (some { hallEvent with updatedAt := 7 }),
     [{ hallEvent with updatedAt := 7 }]) ∧
  ({ hallEvent with updatedAt := 7 }).title = "Old Title" := by decide

/-- Patch containing only a whitespace title. -/
def whitespaceTitlePatch : EventReqBody := { emptyPatch with title := some " " }

/-- C10: counterexample.  A whitespace-only title is truthy, so the patch is
applied and trimmed to the empty string: the stored title of ev-5 goes from
`Old Title` to empty, refuting that no string field can ever be set to empty
via update. -/
theorem update_whitespace_title_counterexample :
  hallEvent.title = "Old Title" ∧
  (updateEventById "ev-5" orgAlice whitespaceTitlePatch 8 [hallEvent]).1 =
    UpdateEventResult.updated (some { hallEvent with title := "", updatedAt := 8 }) := by decide

/-- Registration body whose role is present but the empty string. -/
def emptyRoleBody : RegisterReqBody :=
  { name := some "Carol", email := some "carol@example.com",
    password := some "secret1", role := some "" }

/-- C8: counterexample.  The role value given is the empty string, which is
outside the enumeration, yet the call is not rejected: the falsy role skips
the enumeration check and the user is created with the default role. -/
theorem role_outside_enum_not_rejected_counterexample :
  emptyRoleBody.role = some "" ∧
  ("" : String) ≠ "organizer" ∧ ("" : String) ≠ "attendee" ∧
  (registerUser emptyRoleBody "u-1" 0 []).1 =
    RegisterUserResult.created
      { id := "u-1", name := "Carol", email := "carol@example.com",
        password := bcryptHash 10 "secret1", role := "attendee", createdAt := 0 } := by decide

/-! ## Helper lemmas about the data layer -/

/-- The object spread keeps the event id. -/
lemma mergeEvent_id (e : Event) (u : UpdatedData) : (mergeEvent e u).id = e.id := rfl

/-- When the id is present, the data-layer update returns the merged first
match and the merged record is what a subsequent lookup finds. -/
lemma updateEvent_found (id : String) (u : UpdatedData) :
    ∀ (events : List Event) (e : Event), findEventById id events = some e →
      (updateEvent id u events).1 = some (mergeEvent e u) ∧
      findEventById id (updateEvent id u events).2 = some (mergeEvent e u)
  | [], e, h => by simp [findEventById] at h
  | a :: es, e, h => by
    by_cases ha : (a.id == id) = true
    · have hae : a = e := by
        have := List.find?_cons_of_pos (p := fun ev => ev.id == id) es ha
        rw [findEventById, this] at h
        exact Option.some.inj h
      subst hae
      constructor
      · simp [updateEvent, ha]
      · simp only [updateEvent, ha, if_true]
        rw [findEventById]
        exact List.find?_cons_of_pos _ (by simpa [mergeEvent_id] using ha)
    · have h' : findEventById id es = some e := by
        have := List.find?_cons_of_neg (p := fun ev => ev.id == id) es ha
        rw [findEventById, this] at h
        exact h
      have ih := updateEvent_found id u es e h'
      constructor
      · simp [updateEvent, ha, ih.1]
      · simp only [updateEvent, ha, if_false, Bool.false_eq_true]
        rw [findEventById]
        rw [List.find?_cons_of_neg (p := fun event => event.id == id) (updateEvent id u es).2 ha]
        exact ih.2

/-- Shape of `updateEventById` when the event exists and the caller owns
it: a 200 with the merged record, and the store after the data-layer
update. -/
lemma updateEventById_found_owner (id : String) (user : AuthUser) (body : EventReqBody)
    (now : Nat) (events : List Event) (e : Event)
    (hfind : findEventById id events = some e) (howner : e.organizerId = user.id) :
    updateEventById id user body now events =
      (UpdateEventResult.updated (some (mergeEvent e (buildUpdatedData body now))),
       (updateEvent id (buildUpdatedData body now) events).2) := by
  have h1 := (updateEvent_found id (buildUpdatedData body now) events e hfind).1
  unfold updateEventById
  rw [hfind]
  simp [howner, h1]

/-! ## Claim theorems about update and ownership -/

/-- C4: for an existing event, a caller whose id differs from the owning
organizer id receives Forbidden from both update and delete with the store
unchanged; the caller whose id equals the owner id (with the organizer
role) proceeds: update responds 200 with an updated record and delete
responds 200.  Forbidden maps to status 403 for both. -/
theorem event_ownership_gate (events : List Event) (id : String) (user : AuthUser)
    (body : EventReqBody) (now : Nat) (e : Event)
    (hfind : findEventById id events = some e) :
  (e.organizerId ≠ user.id →
    updateEventById id user body now events = (UpdateEventResult.forbidden, events) ∧
    deleteEventById id user events = (DeleteEventResult.forbidden, events)) ∧
  (e.organizerId = user.id → user.role = "organizer" →
    (∃ ev, (updateEventById id user body now events).1 = UpdateEventResult.updated ev) ∧
    (deleteEventById id user events).1 = DeleteEventResult.deleted) ∧
  updateEventStatus UpdateEventResult.forbidden = 403 ∧
  deleteEventStatus DeleteEventResult.forbidden = 403 := by
  refine ⟨?_, ?_, rfl, rfl⟩
  · intro hne
    constructor
    · unfold updateEventById
      rw [hfind]
      simp [hne]
    · unfold deleteEventById
      rw [hfind]
      simp [hne]
  · intro heq _
    constructor
    · exact ⟨_, congrArg Prod.fst
        (updateEventById_found_owner id user body now events e hfind heq)⟩
    · unfold deleteEventById
      rw [hfind]
      simp [heq]

/-- C5 (amended): when the event exists and the caller owns it, update
responds with a stored record in which every truthy patch field is applied
(string fields trimmed), every absent field keeps its previous value (a
present falsy string is ignored, see the counterexample), `maxParticipants`
is applied whenever the key is present — so capacity becomes unlimited only
through the explicit `null` sentinel, never by omission — the update
timestamp is always refreshed, and all remaining fields (id, organizer,
participants, creation time) are unchanged. -/
theorem update_partial_patch_semantics (events : List Event) (id : String) (user : AuthUser)
    (body : EventReqBody) (now : Nat) (e : Event)
    (hfind : findEventById id events = some e) (howner : e.organizerId = user.id) :
  ∃ e', (updateEventById id user body now events).1 = UpdateEventResult.updated (some e') ∧
    findEventById id (updateEventById id user body now events).2 = some e' ∧
    e'.updatedAt = now ∧
    (body.title = none → e'.title = e.title) ∧
    (∀ s, body.title = some s → s ≠ "" → e'.title = jsTrim s) ∧
    (body.description = none → e'.description = e.description) ∧
    (∀ s, body.description = some s → s ≠ "" → e'.description = jsTrim s) ∧
    (body.date = none → e'.date = e.date) ∧
    (∀ s, body.date = some s → s ≠ "" → e'.date = s) ∧
    (body.time = none → e'.time = e.time) ∧
    (∀ s, body.time = some s → s ≠ "" → e'.time = s) ∧
    (body.location = none → e'.location = e.location) ∧
    (∀ s, body.location = some s → s ≠ "" → e'.location = jsTrim s) ∧
    (body.maxParticipants = none → e'.maxParticipants = e.maxParticipants) ∧
    (∀ mc, body.maxParticipants = some mc → e'.maxParticipants = mc) ∧
    e'.id = e.id ∧ e'.organizerId = e.organizerId ∧
    e'.participants = e.participants ∧ e'.createdAt = e.createdAt := by
  have hshape := updateEventById_found_owner id user body now events e hfind howner
  have hfind2 := (updateEvent_found id (buildUpdatedData body now) events e hfind).2
  refine ⟨mergeEvent e (buildUpdatedData body now), ?_, ?_, rfl, ?_, ?_, ?_, ?_, ?_, ?_, ?_,
    ?_, ?_, ?_, ?_, ?_, rfl, rfl, rfl, rfl⟩
  · rw [hshape]
  · rw [hshape]
    exact hfind2
  · intro h; simp [mergeEvent, buildUpdatedData, strFieldPatch, h]
  · intro s h hs; simp [mergeEvent, buildUpdatedData, strFieldPatch, h, hs]
  · intro h; simp [mergeEvent, buildUpdatedData, strFieldPatch, h]
  · intro s h hs; simp [mergeEvent, buildUpdatedData, strFieldPatch, h, hs]
  · intro h; simp [mergeEvent, buildUpdatedData, rawFieldPatch, h]
  · intro s h hs; simp [mergeEvent, buildUpdatedData, rawFieldPatch, h, hs]
  · intro h; simp [mergeEvent, buildUpdatedData, rawFieldPatch, h]
  · intro s h hs; simp [mergeEvent, buildUpdatedData, rawFieldPatch, h, hs]
  · intro h; simp [mergeEvent, buildUpdatedData, strFieldPatch, h]
  · intro s h hs; simp [mergeEvent, buildUpdatedData, strFieldPatch, h, hs]
  · intro h; simp [mergeEvent, buildUpdatedData, h]
  · intro mc h; simp [mergeEvent, buildUpdatedData, h]

/-- C5 (amended) witness: the specification scenario — patch only the title
with `X` on the demo event — instantiated through the theorem. -/
theorem update_partial_patch_semantics_witness :
  ∃ e', (updateEventById "ev-5" orgAlice { emptyPatch with title := some "X" } 7
      [hallEvent]).1 = UpdateEventResult.updated (some e') ∧
    e'.title = "X" ∧ e'.location = hallEvent.location ∧ e'.date = hallEvent.date ∧
    e'.updatedAt = 7 := by
  obtain ⟨e', h1, _, hts, _, htitle, _, _, hdate, _, _, _, hloc, _, _, _, _, _, _, _⟩ :=
    update_partial_patch_semantics [hallEvent] "ev-5" orgAlice
      { emptyPatch with title := some "X" } 7 hallEvent rfl rfl
  exact ⟨e', h1, by rw [htitle "X" rfl (by decide)]; decide, hloc rfl, hdate rfl, hts⟩

/-- C10 (amended): a falsy (empty-string) value present in the patch for
title, description, date, time or location is ignored exactly like an
absent field, and `maxParticipants` is applied whenever present, including
the value `null`; however a truthy whitespace-only string field is applied
and trimmed, so a string field can still become empty (see the
counterexample). -/
theorem update_falsy_fields_ignored (events : List Event) (id : String) (user : AuthUser)
    (body : EventReqBody) (now : Nat) (e : Event)
    (hfind : findEventById id events = some e) (howner : e.organizerId = user.id) :
  ∃ e', (updateEventById id user body now events).1 = UpdateEventResult.updated (some e') ∧
    (body.title = some "" → e'.title = e.title) ∧
    (body.description = some "" → e'.description = e.description) ∧
    (body.date = some "" → e'.date = e.date) ∧
    (body.time = some "" → e'.time = e.time) ∧
    (body.location = some "" → e'.location = e.location) ∧
    (∀ mc, body.maxParticipants = some mc → e'.maxParticipants = mc) ∧
    (∀ s, body.title = some s → s ≠ "" → e'.title = jsTrim s) := by
  have hshape := updateEventById_found_owner id user body now events e hfind howner
  refine ⟨mergeEvent e (buildUpdatedData body now), ?_, ?_, ?_, ?_, ?_, ?_, ?_, ?_⟩
  · rw [hshape]
  · intro h; simp [mergeEvent, buildUpdatedData, strFieldPatch, h]
  · intro h; simp [mergeEvent, buildUpdatedData, strFieldPatch, h]
  · intro h; simp [mergeEvent, buildUpdatedData, rawFieldPatch, h]
  · intro h; simp [mergeEvent, buildUpdatedData, rawFieldPatch, h]
  · intro h; simp [mergeEvent, buildUpdatedData, strFieldPatch, h]
  · intro mc h; simp [mergeEvent, buildUpdatedData, h]
  · intro s h hs; simp [mergeEvent, buildUpdatedData, strFieldPatch, h, hs]

/-- C10 (amended) witness: a patch with an explicitly empty title and an
explicit `null` capacity leaves the title and sets the capacity to the
unlimited sentinel. -/
theorem update_falsy_fields_ignored_witness :
  ∃ e', (updateEventById "ev-5" orgAlice
      { emptyPatch with title := some "", maxParticipants := some none } 9 [hallEvent]).1 =
    UpdateEventResult.updated (some e') ∧
    e'.title = hallEvent.title ∧ e'.maxParticipants = none := by
  obtain ⟨e', h1, htitle, _, _, _, _, hmax, _⟩ :=
    update_falsy_fields_ignored [hallEvent] "ev-5" orgAlice
      { emptyPatch with title := some "", maxParticipants := some none } 9 hallEvent rfl rfl
  exact ⟨e', h1, htitle rfl, hmax none rfl⟩

/-! ## Branch lemmas for registerForEvent -/

/-- Registration when the event id is absent. -/
lemma registerForEvent_none (o : EmailOutcome) (id : String) (u : AuthUser) (now : Nat)
    (events : List Event) (h : findEventById id events = none) :
    registerForEvent o id u now events = (.notFound, events, []) := by
  unfold registerForEvent
  rw [h]

/-- Registration when the caller is already a participant. -/
lemma registerForEvent_conflict (o : EmailOutcome) (id : String) (u : AuthUser) (now : Nat)
    (events : List Event) (e : Event) (h : findEventById id events = some e)
    (ha : alreadyRegistered e u.id = true) :
    registerForEvent o id u now events = (.conflict, events, []) := by
  unfold registerForEvent
  rw [h]
  simp [ha]

/-- Registration when the capacity test fires. -/
lemma registerForEvent_full (o : EmailOutcome) (id : String) (u : AuthUser) (now : Nat)
    (events : List Event) (e : Event) (h : findEventById id events = some e)
    (ha : alreadyRegistered e u.id = false) (hf : eventFull e = true) :
    registerForEvent o id u now events = (.capacityExceeded, events, []) := by
  unfold registerForEvent
  rw [h]
  simp [ha, hf]

/-- Successful registration: the participant snapshot is pushed onto the
found event and the reduced view is returned. -/
lemma registerForEvent_success (o : EmailOutcome) (id : String) (u : AuthUser) (now : Nat)
    (events : List Event) (e : Event) (h : findEventById id events = some e)
    (ha : alreadyRegistered e u.id = false) (hf : eventFull e = false) :
    registerForEvent o id u now events =
      (.success ⟨e.id, e.title, e.date, e.time⟩,
       setEventFirst id
         { e with participants := e.participants ++ [⟨u.id, u.name, u.email, now⟩] } events,
       (sendRegistrationEmail o u.email u.name e.title).log) := by
  unfold registerForEvent
  rw [h]
  simp [ha, hf]

/-- The capacity test characterized: it fires exactly for a stored nonzero
capacity that the participant count has reached. -/
lemma eventFull_iff (e : Event) :
    eventFull e = true ↔
      ∃ c, e.maxParticipants = some c ∧ c ≠ 0 ∧ (e.participants.length : Int) ≥ c := by
  unfold eventFull
  cases hm : e.maxParticipants with
  | none => simp
  | some c => simp [bne_iff_ne]

/-- Replacing the first id match is transparent to a subsequent lookup of
that id. -/
lemma findEventById_setEventFirst (id : String) (e' : Event) (hid : (e'.id == id) = true) :
    ∀ (events : List Event) (e : Event), findEventById id events = some e →
      findEventById id (setEventFirst id e' events) = some e'
  | [], e, h => by simp [findEventById] at h
  | a :: es, e, h => by
    by_cases ha : (a.id == id) = true
    · rw [setEventFirst, if_pos ha, findEventById]
      exact List.find?_cons_of_pos _ hid
    · rw [setEventFirst, if_neg ha, findEventById]
      rw [List.find?_cons_of_neg (p := fun event => event.id == id) (setEventFirst id e' es) ha]
      have h' : findEventById id es = some e := by
        have := List.find?_cons_of_neg (p := fun event => event.id == id) es ha
        rw [findEventById, this] at h
        exact h
      exact findEventById_setEventFirst id e' hid es e h'

/-! ## Claim theorems about registration -/

/-- C3: the registration preconditions are checked in source order — the
outcome is NotFound exactly when the event id is absent; for an existing
event the outcome is Conflict exactly when the caller id already appears
among the participants (regardless of capacity), and CapacityExceeded
exactly when the caller is not yet a participant and the capacity test
fires, i.e. a truthy stored capacity that the participant count has
reached; and the three errors map to three pairwise distinct caller-visible
statuses 404, 409 and 400. -/
theorem register_precondition_order (outcome : EmailOutcome) (events : List Event)
    (id : String) (user : AuthUser) (now : Nat) :
  ((registerForEvent outcome id user now events).1 = RegisterResult.notFound ↔
    findEventById id events = none) ∧
  (∀ e, findEventById id events = some e →
    (((registerForEvent outcome id user now events).1 = RegisterResult.conflict) ↔
      alreadyRegistered e user.id = true) ∧
    (((registerForEvent outcome id user now events).1 = RegisterResult.capacityExceeded) ↔
      (alreadyRegistered e user.id = false ∧ eventFull e = true))) ∧
  (∀ e, eventFull e = true ↔
    ∃ c, e.maxParticipants = some c ∧ c ≠ 0 ∧ (e.participants.length : Int) ≥ c) ∧
  registerStatus RegisterResult.notFound = 404 ∧
  registerStatus RegisterResult.conflict = 409 ∧
  registerStatus RegisterResult.capacityExceeded = 400 := by
  refine ⟨?_, ?_, fun e => eventFull_iff e, rfl, rfl, rfl⟩
  · cases hf : findEventById id events with
    | none => simp [registerForEvent_none outcome id user now events hf]
    | some e =>
      constructor
      · intro hr
        exfalso
        cases ha : alreadyRegistered e user.id with
        | false =>
          cases hfu : eventFull e with
          | false =>
            rw [registerForEvent_success outcome id user now events e hf ha hfu] at hr
            simp at hr
          | true =>
            rw [registerForEvent_full outcome id user now events e hf ha hfu] at hr
            simp at hr
        | true =>
          rw [registerForEvent_conflict outcome id user now events e hf ha] at hr
          simp at hr
      · intro h
        simp at h
  · intro e he
    constructor
    · constructor
      · intro hr
        cases ha : alreadyRegistered e user.id with
        | false =>
          exfalso
          cases hfu : eventFull e with
          | false =>
            rw [registerForEvent_success outcome id user now events e he ha hfu] at hr
            simp at hr
          | true =>
            rw [registerForEvent_full outcome id user now events e he ha hfu] at hr
            simp at hr
        | true => rfl
      · intro ha
        rw [registerForEvent_conflict outcome id user now events e he ha]
    · constructor
      · intro hr
        cases ha : alreadyRegistered e user.id with
        | false =>
          cases hfu : eventFull e with
          | false =>
            exfalso
            rw [registerForEvent_success outcome id user now events e he ha hfu] at hr
            simp at hr
          | true => exact ⟨rfl, rfl⟩
        | true =>
          exfalso
          rw [registerForEvent_conflict outcome id user now events e he ha] at hr
          simp at hr
      · rintro ⟨ha, hfu⟩
        rw [registerForEvent_full outcome id user now events e he ha hfu]

/-- A full demo event: capacity 1 with one participant. -/
def fullEvent : Event :=
  { hallEvent with
    id := "ev-3"
    maxParticipants := some 1
    participants := [⟨"att-2", "Cara", "cara@example.com", 1⟩] }

/-- C3 witness: on the full demo event a fresh caller receives
CapacityExceeded. -/
theorem register_precondition_order_witness :
  (registerForEvent (.sent "m") "ev-3" attBob 5 [fullEvent]).1 =
    RegisterResult.capacityExceeded :=
  (((register_precondition_order (.sent "m") [fullEvent] "ev-3" attBob 5).2.1 fullEvent
    (by decide)).2).mpr ⟨by decide, by decide⟩

/-- C4 witness: on the demo event, a non-owner caller receives Forbidden
from update with the store untouched, and the owner succeeds in deleting. -/
theorem event_ownership_gate_witness :
  updateEventById "ev-5" attBob emptyPatch 4 [hallEvent] =
    (UpdateEventResult.forbidden, [hallEvent]) ∧
  (deleteEventById "ev-5" orgAlice [hallEvent]).1 = DeleteEventResult.deleted :=
  ⟨((event_ownership_gate [hallEvent] "ev-5" attBob emptyPatch 4 hallEvent (by decide)).1
      (by decide)).1,
   ((event_ownership_gate [hallEvent] "ev-5" orgAlice emptyPatch 4 hallEvent (by decide)).2.1
      (by decide) rfl).2⟩

/-- C7: the registration outcome and the resulting event store are
identical for any two outcomes of the notification send — the email result
never surfaces to the caller and never rolls back the registration; only
the console log differs. -/
theorem registration_independent_of_email_outcome (o1 o2 : EmailOutcome) (id : String)
    (user : AuthUser) (now : Nat) (events : List Event) :
  (registerForEvent o1 id user now events).1 = (registerForEvent o2 id user now events).1 ∧
  (registerForEvent o1 id user now events).2.1 =
    (registerForEvent o2 id user now events).2.1 := by
  cases hf : findEventById id events with
  | none =>
    rw [registerForEvent_none o1 id user now events hf,
        registerForEvent_none o2 id user now events hf]
    exact ⟨rfl, rfl⟩
  | some e =>
    cases ha : alreadyRegistered e user.id with
    | false =>
      cases hfu : eventFull e with
      | false =>
        rw [registerForEvent_success o1 id user now events e hf ha hfu,
            registerForEvent_success o2 id user now events e hf ha hfu]
        exact ⟨rfl, rfl⟩
      | true =>
        rw [registerForEvent_full o1 id user now events e hf ha hfu,
            registerForEvent_full o2 id user now events e hf ha hfu]
        exact ⟨rfl, rfl⟩
    | true =>
      rw [registerForEvent_conflict o1 id user now events e hf ha,
          registerForEvent_conflict o2 id user now events e hf ha]
      exact ⟨rfl, rfl⟩

/-- C6: every failed registration (NotFound, Conflict or CapacityExceeded)
leaves the event store unchanged; and after a successful registration the
same caller registering again gets Conflict, the store is again unchanged,
and the event then holds exactly one participant entry for that caller. -/
theorem register_failure_frame (o o2 : EmailOutcome) (events : List Event) (id : String)
    (user : AuthUser) (now1 now2 : Nat) :
  ((registerForEvent o id user now1 events).1.isSuccess = false →
    (registerForEvent o id user now1 events).2.1 = events) ∧
  (∀ v, (registerForEvent o id user now1 events).1 = RegisterResult.success v →
    (registerForEvent o2 id user now2 (registerForEvent o id user now1 events).2.1).1 =
      RegisterResult.conflict ∧
    (registerForEvent o2 id user now2 (registerForEvent o id user now1 events).2.1).2.1 =
      (registerForEvent o id user now1 events).2.1 ∧
    ∀ e', findEventById id ((registerForEvent o id user now1 events).2.1) = some e' →
      (e'.participants.filter (fun p => p.userId == user.id)).length = 1) := by
  constructor
  · intro hns
    cases hf : findEventById id events with
    | none => rw [registerForEvent_none o id user now1 events hf]
    | some e =>
      cases ha : alreadyRegistered e user.id with
      | false =>
        cases hfu : eventFull e with
        | false =>
          exfalso
          rw [registerForEvent_success o id user now1 events e hf ha hfu] at hns
          simp [RegisterResult.isSuccess] at hns
        | true => rw [registerForEvent_full o id user now1 events e hf ha hfu]
      | true => rw [registerForEvent_conflict o id user now1 events e hf ha]
  · intro v hv
    cases hf : findEventById id events with
    | none =>
      rw [registerForEvent_none o id user now1 events hf] at hv
      simp at hv
    | some e =>
      cases ha : alreadyRegistered e user.id with
      | true =>
        rw [registerForEvent_conflict o id user now1 events e hf ha] at hv
        simp at hv
      | false =>
        cases hfu : eventFull e with
        | true =>
          rw [registerForEvent_full o id user now1 events e hf ha hfu] at hv
          simp at hv
        | false =>
          have hreg := registerForEvent_success o id user now1 events e hf ha hfu
          have hf' : events.find? (fun event => event.id == id) = some e := hf
          have hid0 := List.find?_some hf'
          have hid : (e.id == id) = true := hid0
          have hfind' : findEventById id (registerForEvent o id user now1 events).2.1 =
              some { e with participants :=
                e.participants ++ [⟨user.id, user.name, user.email, now1⟩] } := by
            rw [hreg]
            exact findEventById_setEventFirst id
              { e with participants :=
                e.participants ++ [⟨user.id, user.name, user.email, now1⟩] }
              hid events e hf
          have ha' : alreadyRegistered
              { e with participants :=
                e.participants ++ [⟨user.id, user.name, user.email, now1⟩] } user.id = true := by
            simp [alreadyRegistered, List.any_append]
          have hconf := registerForEvent_conflict o2 id user now2
            (registerForEvent o id user now1 events).2.1 _ hfind' ha'
          refine ⟨by rw [hconf], by rw [hconf], ?_⟩
          intro e'' he''
          have he : e'' = { e with participants :=
              e.participants ++ [⟨user.id, user.name, user.email, now1⟩] } := by
            rw [he''] at hfind'
            exact Option.some.inj hfind'
          subst he
          have hnone : e.participants.filter (fun p => p.userId == user.id) = [] := by
            rw [List.filter_eq_nil_iff]
            intro p hp
            have := (List.any_eq_false.mp ha) p hp
            simpa using this
          simp [List.filter_append, hnone]

/-- C6 witness: registering Bob twice on the open demo event — the second
attempt is a Conflict and the event holds exactly one entry for Bob. -/
theorem register_failure_frame_witness :
  (registerForEvent (.sent "m2") "ev-5" attBob 2
    (registerForEvent (.sent "m1") "ev-5" attBob 1 [hallEvent]).2.1).1 =
      RegisterResult.conflict ∧
  (({ hallEvent with
      participants := [⟨"att-1", "Bob", "bob@example.com", 1⟩] } : Event).participants.filter
    (fun p => p.userId == attBob.id)).length = 1 := by
  have h := (register_failure_frame (.sent "m1") (.sent "m2") [hallEvent] "ev-5" attBob 1 2).2
    ⟨"ev-5", "Old Title", "2026-01-01", "09:00"⟩ (by decide)
  exact ⟨h.1, h.2.2 { hallEvent with
    participants := [⟨"att-1", "Bob", "bob@example.com", 1⟩] } (by decide)⟩

/-- C8 (amended): user-registration shape validation happens before any
store mutation — a non-empty error list short-circuits the call with the
store unchanged; a present truthy role outside the enumeration always
yields validation errors; an omitted or empty role never blocks creation
and the created user carries the default role attendee; validation errors
map to status 400. -/
theorem createUser_validation_and_role (body : RegisterReqBody) (newId : String) (now : Nat)
    (users : List User) :
  (validateRegistration body.name body.email body.password body.role ≠ [] →
    registerUser body newId now users =
      (RegisterUserResult.validationError
        (validateRegistration body.name body.email body.password body.role), users)) ∧
  (∀ r, body.role = some r → r ≠ "" → r ≠ "organizer" → r ≠ "attendee" →
    validateRegistration body.name body.email body.password body.role ≠ []) ∧
  ((body.role = none ∨ body.role = some "") →
    ∀ u, (registerUser body newId now users).1 = RegisterUserResult.created u →
      u.role = "attendee") ∧
  registerUserStatus (RegisterUserResult.validationError
    (validateRegistration body.name body.email body.password body.role)) = 400 := by
  refine ⟨?_, ?_, ?_, rfl⟩
  · intro h
    unfold registerUser
    rw [if_pos (List.length_pos.mpr h)]
  · intro r hr h1 h2 h3 hnil
    have he1 : (r == "") = false := by simp [h1]
    have he2 : (r == "organizer") = false := by simp [h2]
    have he3 : (r == "attendee") = false := by simp [h3]
    simp [validateRegistration, hr, he1, he2, he3] at hnil
  · intro hrole u hu
    unfold registerUser at hu
    by_cases he : 0 < (validateRegistration body.name body.email body.password body.role).length
    · rw [if_pos he] at hu
      simp at hu
    · rw [if_neg he] at hu
      cases hfind : findUserByEmail (body.email.getD "") users with
      | some w => rw [hfind] at hu; simp at hu
      | none =>
        rw [hfind] at hu
        simp only [RegisterUserResult.created.injEq] at hu
        rw [← hu]
        rcases hrole with h | h <;> simp [h]

/-- C8 (amended) witness: the role `admin` is rejected by validation, and
an omitted role yields the default role attendee. -/
theorem createUser_validation_and_role_witness :
  validateRegistration (some "Carol") (some "carol@example.com") (some "secret1")
    (some "admin") ≠ [] ∧
  ∀ u, (registerUser
      ⟨some "Dana", some "dana@example.com", some "secret1", none⟩ "u-3" 0 []).1 =
    RegisterUserResult.created u → u.role = "attendee" :=
  ⟨(createUser_validation_and_role
      ⟨some "Carol", some "carol@example.com", some "secret1", some "admin"⟩ "u-2" 0 []).2.1
      "admin" rfl (by decide) (by decide) (by decide),
   (createUser_validation_and_role
      ⟨some "Dana", some "dana@example.com", some "secret1", none⟩ "u-3" 0 []).2.2.1
      (Or.inl rfl)⟩

/-- C9: a createEvent request whose `maxParticipants` field is absent,
`null` or the falsy number 0 stores the event with capacity `null`
(unlimited); and a registration against an event with capacity `null` by a
caller who is not yet a participant always succeeds, whatever the current
participant count. -/
theorem falsy_capacity_unlimited (user : AuthUser) (body : EventReqBody) (now : Nat)
    (newId : String) (events : List Event) (outcome : EmailOutcome) :
  ((body.maxParticipants = none ∨ body.maxParticipants = some none ∨
      body.maxParticipants = some (some 0)) →
    ∀ e, (createEvent user body now newId events).1 = CreateEventResult.created e →
      e.maxParticipants = none) ∧
  (∀ id e u2 now2, findEventById id events = some e → e.maxParticipants = none →
    alreadyRegistered e u2.id = false →
    (registerForEvent outcome id u2 now2 events).1 =
      RegisterResult.success ⟨e.id, e.title, e.date, e.time⟩) := by
  constructor
  · intro hmp e he
    unfold createEvent at he
    by_cases herr : 0 < (validateEvent body.title body.description body.date body.time
        body.location).length
    · rw [if_pos herr] at he
      simp at he
    · rw [if_neg herr] at he
      simp only [CreateEventResult.created.injEq] at he
      rw [← he]
      rcases hmp with h | h | h <;> simp [h]
  · intro id e u2 now2 hf hm ha
    have hfu : eventFull e = false := by simp [eventFull, hm]
    rw [registerForEvent_success outcome id u2 now2 events e hf ha hfu]

/-- An event with unlimited capacity and two participants already. -/
def crowdedEvent : Event :=
  { hallEvent with
    id := "ev-9"
    participants := [⟨"p-1", "P One", "p1@example.com", 0⟩,
                     ⟨"p-2", "P Two", "p2@example.com", 0⟩] }

/-- C9 witness: creating with `maxParticipants: 0` stores capacity `null`,
and a fresh caller registers successfully on an unlimited event that
already has two participants. -/
theorem falsy_capacity_unlimited_witness :
  (∀ e, (createEvent orgAlice { baseEventBody with maxParticipants := some (some 0) } 0
      "ev-0" []).1 = CreateEventResult.created e → e.maxParticipants = none) ∧
  (registerForEvent (.sent "m") "ev-9" attBob 3 [crowdedEvent]).1 =
    RegisterResult.success ⟨crowdedEvent.id, crowdedEvent.title, crowdedEvent.date,
      crowdedEvent.time⟩ :=
  ⟨(falsy_capacity_unlimited orgAlice
      { baseEventBody with maxParticipants := some (some 0) } 0 "ev-0" [] (.sent "m")).1
      (Or.inr (Or.inr rfl)),
   (falsy_capacity_unlimited attBob baseEventBody 0 "x" [crowdedEvent] (.sent "m")).2
      "ev-9" crowdedEvent attBob 3 (by decide) rfl (by decide)⟩

/-! ## Preservation of the capacity invariant -/

/-- The invariant distributes over a push. -/
lemma capacityInvariant_append (events : List Event) (e : Event) :
    capacityInvariant (events ++ [e]) = (capacityInvariant events && capacityOk e) := by
  simp [capacityInvariant, List.all_append]

/-- Every member of an invariant store satisfies the per-event bound. -/
lemma capacityOk_of_mem {events : List Event} {e : Event}
    (h : capacityInvariant events = true) (hm : e ∈ events) : capacityOk e = true := by
  rw [capacityInvariant, List.all_eq_true] at h
  exact h e hm

/-- Introduction rule for the per-event bound: it suffices to bound any
stored capacity. -/
lemma capacityOk_intro (e : Event)
    (h : ∀ c, e.maxParticipants = some c → 0 < c ∧ (e.participants.length : Int) ≤ c) :
    capacityOk e = true := by
  unfold capacityOk
  cases hm : e.maxParticipants with
  | none => rfl
  | some c =>
    have hc := h c hm
    simp [hc.1, hc.2]

/-- Elimination rule for the per-event bound. -/
lemma capacityOk_elim {e : Event} {c : Int} (hok : capacityOk e = true)
    (hm : e.maxParticipants = some c) :
    0 < c ∧ (e.participants.length : Int) ≤ c := by
  unfold capacityOk at hok
  rw [hm] at hok
  simpa using hok

/-- Pushing one participant onto an event that is not full keeps the
per-event bound. -/
lemma capacityOk_push (e : Event) (p : Participant) (hok : capacityOk e = true)
    (hfull : eventFull e = false) :
    capacityOk { e with participants := e.participants ++ [p] } = true := by
  apply capacityOk_intro
  intro c hc
  have hc' : e.maxParticipants = some c := hc
  have he := capacityOk_elim hok hc'
  have hfull0 : (match e.maxParticipants with
    | none => false
    | some c0 => c0 != 0 && decide ((e.participants.length : Int) ≥ c0)) = false := hfull
  rw [hc'] at hfull0
  have hfull' : (c != 0 && decide ((e.participants.length : Int) ≥ c)) = false := hfull0
  have hcne : (c != 0) = true := bne_iff_ne.mpr (by omega)
  rw [hcne, Bool.true_and] at hfull'
  have hlt : ¬ ((e.participants.length : Int) ≥ c) := of_decide_eq_false hfull'
  refine ⟨he.1, ?_⟩
  show (((e.participants ++ [p]).length : Nat) : Int) ≤ c
  simp only [List.length_append, List.length_cons, List.length_nil]
  push_cast
  omega

/-- A merge keeps the per-event bound when the merged capacity is a
positive bound on the unchanged participant count. -/
lemma capacityOk_mergeEvent (e : Event) (u : UpdatedData)
    (h : ∀ c, u.maxParticipants.getD e.maxParticipants = some c →
      0 < c ∧ (e.participants.length : Int) ≤ c) :
    capacityOk (mergeEvent e u) = true := by
  apply capacityOk_intro
  intro c hc
  have hc' : u.maxParticipants.getD e.maxParticipants = some c := hc
  exact h c hc'

/-- Replacing the first id match preserves the invariant when the
replacement satisfies the per-event bound. -/
lemma capacityInvariant_setEventFirst (id : String) (e' : Event) (he : capacityOk e' = true) :
    ∀ (events : List Event), capacityInvariant events = true →
      capacityInvariant (setEventFirst id e' events) = true
  | [], _ => rfl
  | a :: es, h => by
    have h1 : capacityOk a = true ∧ capacityInvariant es = true := (Bool.and_eq_true _ _).mp h
    by_cases ha : (a.id == id) = true
    · rw [setEventFirst, if_pos ha]
      exact (Bool.and_eq_true _ _).mpr ⟨he, h1.2⟩
    · rw [setEventFirst, if_neg ha]
      exact (Bool.and_eq_true _ _).mpr ⟨h1.1, capacityInvariant_setEventFirst id e' he es h1.2⟩

/-- The data-layer delete preserves the invariant. -/
lemma capacityInvariant_deleteEvent (id : String) :
    ∀ (events : List Event), capacityInvariant events = true →
      capacityInvariant (deleteEvent id events).2 = true
  | [], _ => rfl
  | a :: es, h => by
    have h1 : capacityOk a = true ∧ capacityInvariant es = true := (Bool.and_eq_true _ _).mp h
    by_cases ha : (a.id == id) = true
    · rw [deleteEvent, if_pos ha]
      exact h1.2
    · rw [deleteEvent, if_neg ha]
      exact (Bool.and_eq_true _ _).mpr ⟨h1.1, capacityInvariant_deleteEvent id es h1.2⟩

/-- The data-layer update preserves the invariant when the merged first
match satisfies the per-event bound. -/
lemma capacityInvariant_updateEvent (id : String) (u : UpdatedData) :
    ∀ (events : List Event), capacityInvariant events = true →
      (∀ e, findEventById id events = some e → capacityOk (mergeEvent e u) = true) →
      capacityInvariant (updateEvent id u events).2 = true
  | [], _, _ => rfl
  | a :: es, h, hm => by
    have h1 : capacityOk a = true ∧ capacityInvariant es = true := (Bool.and_eq_true _ _).mp h
    by_cases ha : (a.id == id) = true
    · rw [updateEvent, if_pos ha]
      have hma : capacityOk (mergeEvent a u) = true := by
        apply hm a
        rw [findEventById]
        exact List.find?_cons_of_pos _ ha
      exact (Bool.and_eq_true _ _).mpr ⟨hma, h1.2⟩
    · rw [updateEvent, if_neg ha]
      have hmtail : ∀ e, findEventById id es = some e →
          capacityOk (mergeEvent e u) = true := by
        intro e he
        apply hm e
        rw [findEventById]
        rw [List.find?_cons_of_neg (p := fun event => event.id == id) es ha]
        exact he
      exact (Bool.and_eq_true _ _).mpr ⟨h1.1, capacityInvariant_updateEvent id u es h1.2 hmtail⟩

/-- C1 (amended): the capacity invariant — every set capacity is a positive
bound on the participant count — holds for the empty store and is preserved
by createEvent when the requested capacity field is absent, `null` or a
nonnegative number, by deleteEventById, and by registerForEvent
unconditionally; updateEventById preserves it when the capacity patch is
absent, the `null` sentinel, or a positive number at least the patched
event's current participant count (the counterexample shows the guard is
necessary: the code applies any capacity patch unchecked). -/
theorem capacity_invariant_preserved :
  capacityInvariant [] = true ∧
  ∀ events, capacityInvariant events = true →
    (∀ user body now newId, capRequestOk body.maxParticipants = true →
      capacityInvariant (createEvent user body now newId events).2 = true) ∧
    (∀ id user body now, capPatchOk id events body.maxParticipants = true →
      capacityInvariant (updateEventById id user body now events).2 = true) ∧
    (∀ id user, capacityInvariant (deleteEventById id user events).2 = true) ∧
    (∀ outcome id user now,
      capacityInvariant (registerForEvent outcome id user now events).2.1 = true) := by
  refine ⟨rfl, fun events h => ⟨?_, ?_, ?_, ?_⟩⟩
  · -- createEvent
    intro user body now newId hreq
    unfold createEvent
    by_cases herr : 0 < (validateEvent body.title body.description body.date body.time
        body.location).length
    · rw [if_pos herr]
      exact h
    · rw [if_neg herr]
      dsimp only
      rw [addEvent, capacityInvariant_append, h, Bool.true_and]
      apply capacityOk_intro
      intro c hc
      have hc' : (match body.maxParticipants with
        | some (some n) => if n == 0 then none else some n
        | _ => none) = some c := hc
      have hcpos : 0 < c ∧ (0 : Int) ≤ c := by
        cases hmp : body.maxParticipants with
        | none =>
          rw [hmp] at hc'
          simp at hc'
        | some mc =>
          cases mc with
          | none =>
            rw [hmp] at hc'
            simp at hc'
          | some n =>
            rw [hmp] at hc'
            have h0 : (0 : Int) ≤ n := by
              have h' := hreq
              rw [hmp] at h'
              simpa [capRequestOk] using h'
            by_cases hn : (n == 0) = true
            · simp [hn] at hc'
            · have hne : n ≠ 0 := by simpa using hn
              simp only [hn] at hc'
              simp only [Bool.false_eq_true, if_false, Option.some.injEq] at hc'
              subst hc'
              omega
      refine ⟨hcpos.1, ?_⟩
      show (((List.length ([] : List Participant)) : Nat) : Int) ≤ c
      simpa using hcpos.2
  · -- updateEventById
    intro id user body now hpatch
    unfold updateEventById
    cases hf : findEventById id events with
    | none => exact h
    | some e =>
      dsimp only
      by_cases hown : (e.organizerId != user.id) = true
      · rw [if_pos hown]
        exact h
      · rw [if_neg hown]
        apply capacityInvariant_updateEvent id (buildUpdatedData body now) events h
        intro e0 he0
        apply capacityOk_mergeEvent
        intro c hc
        have hok : capacityOk e0 = true := by
          have hf' : events.find? (fun event => event.id == id) = some e0 := he0
          exact capacityOk_of_mem h (List.mem_of_find?_eq_some hf')
        have hc' : body.maxParticipants.getD e0.maxParticipants = some c := hc
        cases hmp : body.maxParticipants with
        | none =>
          rw [hmp] at hc'
          simp only [Option.getD_none] at hc'
          exact capacityOk_elim hok hc'
        | some mc =>
          rw [hmp] at hc'
          simp only [Option.getD_some] at hc'
          subst hc'
          have hp := hpatch
          rw [hmp] at hp
          have hp' : (decide (0 < c) &&
              (match findEventById id events with
               | some e1 => decide ((e1.participants.length : Int) ≤ c)
               | none => true)) = true := hp
          rw [he0] at hp'
          simpa using hp'
  · -- deleteEventById
    intro id user
    unfold deleteEventById
    cases hf : findEventById id events with
    | none => exact h
    | some e =>
      dsimp only
      by_cases hown : (e.organizerId != user.id) = true
      · rw [if_pos hown]
        exact h
      · rw [if_neg hown]
        exact capacityInvariant_deleteEvent id events h
  · -- registerForEvent
    intro outcome id user now
    cases hf : findEventById id events with
    | none =>
      rw [registerForEvent_none outcome id user now events hf]
      exact h
    | some e =>
      cases ha : alreadyRegistered e user.id with
      | true =>
        rw [registerForEvent_conflict outcome id user now events e hf ha]
        exact h
      | false =>
        cases hfu : eventFull e with
        | true =>
          rw [registerForEvent_full outcome id user now events e hf ha hfu]
          exact h
        | false =>
          rw [registerForEvent_success outcome id user now events e hf ha hfu]
          have hok : capacityOk e = true := by
            have hf' : events.find? (fun event => event.id == id) = some e := hf
            exact capacityOk_of_mem h (List.mem_of_find?_eq_some hf')
          exact capacityInvariant_setEventFirst id _
            (capacityOk_push e ⟨user.id, user.name, user.email, now⟩ hok hfu) events h

/-- C1 (amended) witness: creating the demo event with capacity 2 from the
empty store keeps the invariant, and the first registration against the
resulting store keeps it as well. -/
theorem capacity_invariant_preserved_witness :
  capacityInvariant ((createEvent orgAlice capDemoBody 0 "ev-1" []).2) = true ∧
  capacityInvariant ((registerForEvent (.sent "m1") "ev-1" attBob 1
    (createEvent orgAlice capDemoBody 0 "ev-1" []).2).2.1) = true :=
  ⟨((capacity_invariant_preserved.2 [] (by decide)).1) orgAlice capDemoBody 0 "ev-1"
     (by decide),
   ((capacity_invariant_preserved.2 ((createEvent orgAlice capDemoBody 0 "ev-1" []).2)
     (by decide)).2.2.2) (.sent "m1") "ev-1" attBob 1⟩

end VEMP
